import Mathlib

/-!
Verification of the game-database conversion script
(`src/scripts/create-game-db.py` of storance/satisfactory-planner).

The script is embedded shallowly:

* Python floats are modelled as `Rat` (the claims under scrutiny are about
  exact unit conversions — multiplication/division by 1000, a division by the
  power production — none of which depend on floating-point rounding);
* Python ints are modelled as `Int`;
* fallible code (Python exceptions, which are fatal for this script) is
  modelled with `Except String`;
* Python dicts with a fixed key set are modelled as structures.  A dict key
  that is only sometimes present is modelled as an `Option` field whose
  `none` value means "key absent".  In particular the fuel dict may carry the
  key `supplemental_item` (written by `build_fuel`) and the key
  `supplemental` (read by `prune_unused_items`); both appear as separate
  optional fields so that the script's key usage is reproduced exactly.
* `re.findall` calls are embedded as deterministic scanners that reproduce
  the leftmost / greedy / lazy matching behaviour of the two concrete
  regular expressions the script uses.
-/

/-- One `{'item': key, 'amount': a}` pair as used in recipe input/output
lists, fuel entries, supplemental entries and by-product entries. -/
structure ItemAmount where
  item : String
  amount : Rat
  deriving DecidableEq, Repr

/-- An item record as produced by `parse_item`. -/
structure Item where
  key : String
  name : String
  resource : Bool
  state : String
  sink_points : Int
  energy_mj : Rat
  deriving DecidableEq, Repr

/-- A fuel dict as produced by `build_fuel`.  The Python dict always has the
keys `fuel` and `burn_time_secs`; `build_fuel` optionally adds the keys
`supplemental_item` and `by_product`.  The key `supplemental` is *also*
modelled (as a separate optional field) because `prune_unused_items` tests
for it; no code path of the script ever writes it, so for every fuel the
script builds this field is `none`. -/
structure Fuel where
  fuel : ItemAmount
  burn_time_secs : Rat
  supplemental_item : Option ItemAmount := none
  supplemental : Option ItemAmount := none
  by_product : Option ItemAmount := none
  deriving DecidableEq, Repr

/-- A building record.  Only the fields consulted by the operations under
verification are modelled: `key` (recipe lookups, pruning), `name`
(sorting), `type`, and the optional `fuels` list (present exactly for power
generators; `prune_unused_items` tests `'fuels' in building`).  The
remaining dict entries (power consumption, dimensions, extraction data)
are never read again by the script after being stored. -/
structure Building where
  type : String
  key : String
  name : String
  fuels : Option (List Fuel) := none
  deriving DecidableEq, Repr

/-- A recipe record as produced by `parse_recipe`.  `power_min_mw` and
`power_max_mw` are the two entries of the nested `power_consumption` dict. -/
structure Recipe where
  key : String
  name : String
  alternate : Bool
  inputs : List ItemAmount
  outputs : List ItemAmount
  craft_time_secs : Rat
  events : List String
  building : String
  power_min_mw : Rat
  power_max_mw : Rat
  deriving DecidableEq, Repr

/-- The mutable `game_db` aggregate (the static `by_product_blacklist` and
`resource_limits` entries are configuration constants never read by the
verified operations and are omitted). -/
structure GameDb where
  items : List Item
  biomass : List Item
  buildings : List Building
  recipes : List Recipe
  deriving DecidableEq, Repr

/-- The `RESOURCE_CLASS` constant of the script. -/
def RESOURCE_CLASS : String :=
  "/Script/CoreUObject.Class'/Script/FactoryGame.FGResourceDescriptor'"

/-- The `BIOMASS_CLASS` constant of the script. -/
def BIOMASS_CLASS : String :=
  "/Script/CoreUObject.Class'/Script/FactoryGame.FGItemDescriptorBiomass'"

/-- The `FILTER_BUILDINGS` constant of the script. -/
def FILTER_BUILDINGS : List String :=
  ["BP_WorkshopComponent_C",
   "BP_WorkBenchComponent_C",
   "Build_AutomatedWorkBench_C",
   "FGBuildableAutomatedWorkBench",
   "BP_BuildGun_C",
   "FGBuildGun"]

/-- The `FORM_MAPPING` dict of the script, as a partial lookup (`none` models a
missing key, whose access raises `KeyError` in Python). -/
def FORM_MAPPING (s : String) : Option String :=
  if s = "RF_SOLID" then some "solid"
  else if s = "RF_LIQUID" then some "liquid"
  else if s = "RF_GAS" then some "gas"
  else none

/-- The `EVENT_MAPPING` dict of the script. -/
def EVENT_MAPPING (s : String) : Option String :=
  if s = "EV_Christmas" then some "FICSMAS" else none

/-- The `ALTERNATE_PREFIX` constant of the script. -/
def ALTERNATE_MARKER : String := "Alternate: "

/-- The `RECIPES_FORCE_ALTERNATE` constant of the script. -/
def RECIPES_FORCE_ALTERNATE : List String :=
  ["Recipe_Alternate_Turbofuel_C"]

/-- Python `s.strip('()')`: remove all leading and trailing characters that
are `'('` or `')'`. -/
def pyStripParens (s : String) : String :=
  let isParen : Char → Bool := fun c => c = '(' || c = ')'
  ⟨((s.data.dropWhile isParen).reverse.dropWhile isParen).reverse⟩

/-- Recursion core of Python `s.split(",")`: `acc` holds the (reversed)
characters of the current field. -/
def splitCommaAux (acc : List Char) : List Char → List String
  | [] => [⟨acc.reverse⟩]
  | c :: cs =>
    if c = ',' then ⟨acc.reverse⟩ :: splitCommaAux [] cs
    else splitCommaAux (c :: acc) cs

/-- Python `s.split(",")`: split on every comma, keeping empty fields; the
empty string yields `[""]`. -/
def pySplitComma (s : String) : List String :=
  splitCommaAux [] s.data

/-- The `parse_forms` of the script: unrecognized form codes are silently
dropped by the `if form in FORM_MAPPING` guard of the comprehension. -/
def parse_forms (forms : String) : List String :=
  if forms.length = 0 then []
  else (pySplitComma (pyStripParens forms)).filterMap FORM_MAPPING

/-- The `parse_events` of the script: the comprehension indexes
`EVENT_MAPPING[event]` without a membership guard, so an unrecognized event
code raises `KeyError` (fatal). -/
def parse_events (events : String) : Except String (List String) :=
  if events.length = 0 then .ok []
  else (pySplitComma (pyStripParens events)).mapM (fun e =>
    match EVENT_MAPPING e with
    | some v => Except.ok v
    | none => Except.error ("KeyError: " ++ e))

/-- Recursion core of Python `s.replace(pat, new)` for a non-empty pattern
`p :: ps`: scan left to right, replacing every (non-overlapping) occurrence.
The `fuel` argument only bounds the recursion; every call site passes the
length of the scanned list, which suffices because each step consumes at
least one character. -/
def pyReplaceAux (p : Char) (ps new : List Char) : Nat → List Char → List Char
  | _, [] => []
  | 0, s => s
  | Nat.succ fuel, c :: cs =>
    if (p :: ps).isPrefixOf (c :: cs) then
      new ++ pyReplaceAux p ps new fuel (cs.drop ps.length)
    else
      c :: pyReplaceAux p ps new fuel cs

/-- Python `s.replace(pat, new)`, replacing **every** occurrence of `pat`.
The script only ever calls `replace` with the non-empty pattern
`'Build_'`; the empty-pattern case (where Python would insert `new` at
every character boundary) never arises and is mapped to the identity. -/
def pyReplace (s pat new : String) : String :=
  match pat.data with
  | [] => s
  | p :: ps => ⟨pyReplaceAux p ps new.data s.data.length s.data⟩

/-- Attempt to match the regex `"[^.]+\.(.+?)"` of `parse_class_list` at the
head of `cs`.  The match is deterministic: after the opening quote,
`[^.]+` must consume exactly the characters before the first dot (it cannot
cross a dot), and the lazy `(.+?)"` captures one character plus the
characters up to the first following quote.  The `.` wildcard does not
match a newline, so a capture containing `'\n'` fails.  On success, returns
the captured group and the remaining input after the closing quote. -/
def matchClassAt : List Char → Option (List Char × List Char)
  | [] => none
  | c :: cs =>
    if c = '"' then
      let pre := cs.takeWhile (fun a => a ≠ '.')
      match cs.drop pre.length with
      | '.' :: rest2 =>
        if pre.isEmpty then none
        else
          match rest2 with
          | [] => none
          | d :: rest3 =>
            let more := rest3.takeWhile (fun a => a ≠ '"')
            let cap := d :: more
            if cap.all (fun a => a ≠ '\n') then
              match rest3.drop more.length with
              | '"' :: rest5 => some (cap, rest5)
              | _ => none
            else none
      | _ => none
    else none

/-- The `re.findall` driver for `parse_class_list`: try a match at every
position, left to right; on success emit the captured group and resume
after the match, otherwise advance one character.  `fuel` bounds the
recursion and every call site passes the length of the input. -/
def classListAux : Nat → List Char → List (List Char)
  | _, [] => []
  | 0, _ => []
  | Nat.succ fuel, c :: cs =>
    match matchClassAt (c :: cs) with
    | some (cap, rest) => cap :: classListAux fuel rest
    | none => classListAux fuel cs

/-- The `parse_class_list` of the script:
`re.findall(r'"[^.]+\.(.+?)"', class_list)`. -/
def parse_class_list (class_list : String) : List String :=
  (classListAux class_list.data.length class_list.data).map (fun l => ⟨l⟩)

/-- All decompositions `run = pre ++ '\'' :: '"' :: suf`, in increasing
order of `pre.length`.  Used to model the backtracking of the greedy
`[^,]+` before the literal `'"` in the item-list regex. -/
def quoteSplits : List Char → List (List Char × List Char)
  | [] => []
  | c :: cs =>
    let here : List (List Char × List Char) :=
      match cs with
      | '"' :: rest => if c = '\'' then [(([] : List Char), rest)] else []
      | _ => []
    here ++ (quoteSplits cs).map (fun pr => (c :: pr.1, pr.2))

/-- Python `int` of a non-empty digit string (the `\d+` group). -/
def digitsToNat (ds : List Char) : Nat :=
  ds.foldl (fun n c => n * 10 + (c.toNat - '0'.toNat)) 0

/-- Match the part of the item-list regex that follows the literal `'"`:
`[^.]+\.(?P<item>[^,]+)"\',Amount=(?P<amount>\d+)`.  `[^.]+` must stop at
the first dot; the captured `[^,]+` is the non-comma run minus a trailing
`"'`, which must be followed immediately by `,Amount=` and digits.
Returns (captured item, amount, remaining input). -/
def matchItemTail (rem : List Char) : Option (List Char × Nat × List Char) :=
  let a := rem.takeWhile (fun c => c ≠ '.')
  if a.isEmpty then none
  else
    match rem.drop a.length with
    | '.' :: rem3 =>
      let b := rem3.takeWhile (fun c => c ≠ ',')
      match b.reverse with
      | '\'' :: '"' :: capRev =>
        if capRev.isEmpty then none
        else
          let rem4 := rem3.drop b.length
          if ",Amount=".data.isPrefixOf rem4 then
            let rem5 := rem4.drop ",Amount=".data.length
            let d := rem5.takeWhile Char.isDigit
            if d.isEmpty then none
            else some (capRev.reverse, digitsToNat d, rem5.drop d.length)
          else none
      | _ => none
    | _ => none

/-- Attempt to match the regex of `parse_item_list`,
`ItemClass=[^,]+\'"[^.]+\.(?P<item>[^,]+)"\',Amount=(?P<amount>\d+)`,
at the head of `cs`.  The greedy `[^,]+` before `\'"` backtracks from the
longest prefix of the non-comma run, so the candidate `'"` split points are
tried longest-first. -/
def matchItemAt (cs : List Char) : Option ((List Char × Nat) × List Char) :=
  if "ItemClass=".data.isPrefixOf cs then
    let rest0 := cs.drop "ItemClass=".data.length
    let run := rest0.takeWhile (fun c => c ≠ ',')
    let after := rest0.drop run.length
    (((quoteSplits run).filter (fun pr => !pr.1.isEmpty)).reverse).findSome?
      (fun pr => (matchItemTail (pr.2 ++ after)).map
        (fun r => ((r.1, r.2.1), r.2.2)))
  else none

/-- The `re.findall` driver for the item-list regex (same scheme as
`classListAux`). -/
def itemListAux : Nat → List Char → List (List Char × Nat)
  | _, [] => []
  | 0, _ => []
  | Nat.succ fuel, c :: cs =>
    match matchItemAt (c :: cs) with
    | some (capAmt, rest) => capAmt :: itemListAux fuel rest
    | none => itemListAux fuel cs

/-- The list of `(item, amount)` matches the `re.findall` of
`parse_item_list` extracts from `value`. -/
def itemListMatches (value : String) : List (String × Nat) :=
  (itemListAux value.data.length value.data).map (fun pr => (⟨pr.1⟩, pr.2))

/-- The `find_item` of the script: linear scan of `game_db['items']`, raising
`ValueError` if no entry has the requested key. -/
def find_item (game_db : GameDb) (item : String) : Except String Item :=
  match game_db.items.find? (fun entry => entry.key = item) with
  | some entry => .ok entry
  | none => .error ("Item `" ++ item ++ "` is not in the game database.")

/-- The `check_building_exists` of the script. -/
def check_building_exists (game_db : GameDb) (building : String) :
    Except String Unit :=
  match game_db.buildings.find? (fun entry => entry.key = building) with
  | some _ => .ok ()
  | none => .error ("Building " ++ building ++ " is not in the game database.")

/-- The loop body of `parse_item_list`: resolve each extracted
`(item, amount)` match, dividing the amount by 1000 when the referenced
item's state is not solid; `find_item` raises on an unknown key. -/
def resolve_items (game_db : GameDb) :
    List (String × Nat) → Except String (List ItemAmount)
  | [] => .ok []
  | (item, rawAmount) :: rest => do
    let entry ← find_item game_db item
    let amount : Rat :=
      if entry.state ≠ "solid" then (rawAmount : Rat) / 1000
      else (rawAmount : Rat)
    let tail ← resolve_items game_db rest
    .ok ({ item := item, amount := amount } :: tail)

/-- The `parse_item_list` of the script. -/
def parse_item_list (value : String) (game_db : GameDb) :
    Except String (List ItemAmount) :=
  resolve_items game_db (itemListMatches value)

/-- Raw fields of one item definition record consumed by `parse_item`.
`mEnergyValue` is modelled after the script's `float(...)` conversion and
`mResourceSinkPoints` after its `int(...)` conversion. -/
structure ItemDef where
  ClassName : String
  mDisplayName : String
  mForm : String
  mEnergyValue : Rat
  mResourceSinkPoints : Int
  deriving Repr

/-- The `parse_item` of the script.  `FORM_MAPPING[definition['mForm']]` raises
`KeyError` on an unrecognized form code; otherwise the item is appended to
`game_db['items']`, and also to `game_db['biomass']` when the native class
is the biomass class, the energy is positive and the item is not a fluid. -/
def parse_item (native_class : String) (definition : ItemDef)
    (game_db : GameDb) : Except String GameDb :=
  match FORM_MAPPING definition.mForm with
  | none => .error ("KeyError: " ++ definition.mForm)
  | some state =>
    let fluid : Bool := state = "liquid" || state = "gas"
    let resource : Bool := native_class = RESOURCE_CLASS
    let energy : Rat :=
      if fluid then definition.mEnergyValue * 1000 else definition.mEnergyValue
    let item : Item := {
      key := definition.ClassName
      name := definition.mDisplayName
      resource := resource
      state := state
      sink_points := if fluid then 0 else definition.mResourceSinkPoints
      energy_mj := energy }
    let game_db := { game_db with items := game_db.items ++ [item] }
    if native_class = BIOMASS_CLASS && decide (energy > 0) && !fluid then
      .ok { game_db with biomass := game_db.biomass ++ [item] }
    else
      .ok game_db

/-- Raw fields of a building definition record used by
`parse_manufacturer_building`. -/
structure BuildingDef where
  ClassName : String
  mDisplayName : String
  deriving Repr

/-- The `parse_manufacturer_building` of the script.  Only the fields the later
stages read back (`key`, `name`, and the absence of a `fuels` entry) are
modelled; the power-consumption and dimensions entries are stored by the
script but never read again. -/
def parse_manufacturer_building (definition : BuildingDef)
    (game_db : GameDb) : GameDb :=
  let building_key := pyReplace definition.ClassName "Build_" "Desc_"
  { game_db with
    buildings := game_db.buildings ++
      [{ type := "manufacturer"
         key := building_key
         name := definition.mDisplayName }] }

/-- Raw fields of one entry of a generator's `mFuel` list.
`mByproductAmount` is `none` for Python `None` or the empty string, and
`some q` for a string whose `float(...)` value is `q` (the script tests
`not in [None, ""]` before converting). -/
structure FuelSpec where
  mFuelClass : String
  mSupplementalResourceClass : String
  mByproduct : String
  mByproductAmount : Option Rat
  deriving Repr

/-- The `build_fuel` of the script.  Returns `ok none` for a discarded
candidate (zero energy), `ok (some fuel)` for an emitted fuel entry, and an
error when a supplemental or by-product key fails `find_item`.  Note that
the entry written for a supplemental resource has the dict key
`supplemental_item`, and that in the by-product branch the script computes
a unit-converted local `amount` and then stores the *raw*
`float(by_product_amount)` instead. -/
def build_fuel (fuel_item : Item) (supplemental_item_key : String)
    (by_product_item_key : String) (by_product_amount : Option Rat)
    (supplemental_ratio : Rat) (power_production : Int) (game_db : GameDb) :
    Except String (Option Fuel) :=
  if fuel_item.energy_mj = 0 then .ok none
  else
    let fuel0 : Fuel := {
      fuel := { item := fuel_item.key, amount := 1 }
      burn_time_secs := fuel_item.energy_mj / (power_production : Rat) }
    (if supplemental_item_key ≠ "" then
      find_item game_db supplemental_item_key >>= fun supplemental_item =>
        let amount0 := fuel_item.energy_mj * supplemental_ratio
        let amount :=
          if supplemental_item.state ≠ "solid" then amount0 / 1000 else amount0
        Except.ok { fuel0 with
          supplemental_item :=
            some { item := supplemental_item_key, amount := amount } }
    else Except.ok fuel0) >>= fun fuel1 =>
    (match by_product_amount with
      | some rawAmount =>
        if by_product_item_key ≠ "" then
          find_item game_db by_product_item_key >>= fun by_product_item =>
            let _amount :=
              if by_product_item.state ≠ "solid" then rawAmount / 1000
              else rawAmount
            Except.ok { fuel1 with
              by_product :=
                some { item := by_product_item_key, amount := rawAmount } }
        else Except.ok fuel1
      | none => Except.ok fuel1) >>= fun fuel2 =>
    .ok (some fuel2)

/-- The biomass fan-out loop of `parse_fuels`: one `build_fuel` call per
item of `game_db['biomass']`, keeping the non-`None` results in order. -/
def build_fuels_biomass (supplemental_item_key : String)
    (by_product_item_key : String) (by_product_amount : Option Rat)
    (supplemental_ratio : Rat) (power_production : Int) (game_db : GameDb) :
    List Item → Except String (List Fuel)
  | [] => .ok []
  | fuel_item :: rest =>
    build_fuel fuel_item supplemental_item_key by_product_item_key
        by_product_amount supplemental_ratio power_production game_db >>=
      fun parsed_fuel =>
    build_fuels_biomass supplemental_item_key by_product_item_key
        by_product_amount supplemental_ratio power_production game_db rest >>=
      fun tail =>
    match parsed_fuel with
    | some fuel => .ok (fuel :: tail)
    | none => .ok tail

/-- The `parse_fuels` of the script: the fuel class `FGItemDescriptorBiomass`
fans out across the biomass working set; any other fuel class is resolved
directly with `find_item`.  `None` results of `build_fuel` are skipped. -/
def parse_fuels (supplemental_ratio : Rat) (power_production : Int)
    (game_db : GameDb) : List FuelSpec → Except String (List Fuel)
  | [] => .ok []
  | fuel :: rest =>
    (if fuel.mFuelClass = "FGItemDescriptorBiomass" then
      build_fuels_biomass fuel.mSupplementalResourceClass fuel.mByproduct
        fuel.mByproductAmount supplemental_ratio power_production game_db
        game_db.biomass
    else
      find_item game_db fuel.mFuelClass >>= fun fuel_item =>
      build_fuel fuel_item fuel.mSupplementalResourceClass fuel.mByproduct
          fuel.mByproductAmount supplemental_ratio power_production
          game_db >>= fun parsed_fuel =>
      match parsed_fuel with
      | some f => Except.ok [f]
      | none => Except.ok []) >>= fun head =>
    parse_fuels supplemental_ratio power_production game_db rest >>= fun tail =>
    .ok (head ++ tail)

/-- Python `int(q)` on a float: truncation toward zero. -/
def pyTrunc (q : Rat) : Int :=
  if q ≥ 0 then ⌊q⌋ else ⌈q⌉

/-- Raw fields of a power-generator definition record used by
`parse_power_generator`. -/
structure GeneratorDef where
  ClassName : String
  mDisplayName : String
  mSupplementalToPowerRatio : Rat
  mPowerProduction : Rat
  mFuel : List FuelSpec
  deriving Repr

/-- The `parse_power_generator` of the script (the generator's power production
is `int(float(definition['mPowerProduction']))`).  The appended building
dict carries a `fuels` entry. -/
def parse_power_generator (definition : GeneratorDef) (game_db : GameDb) :
    Except String GameDb := do
  let building_key := pyReplace definition.ClassName "Build_" "Desc_"
  let supplemental_ratio := definition.mSupplementalToPowerRatio
  let power_production := pyTrunc definition.mPowerProduction
  let fuels ← parse_fuels supplemental_ratio power_production game_db
    definition.mFuel
  .ok { game_db with
    buildings := game_db.buildings ++
      [{ type := "power_generator"
         key := building_key
         name := definition.mDisplayName
         fuels := some fuels }] }

/-- Raw fields of a recipe definition record consumed by `parse_recipe`. -/
structure RecipeDef where
  ClassName : String
  mDisplayName : String
  mProducedIn : String
  mIngredients : String
  mProduct : String
  mManufactoringDuration : Rat
  mVariablePowerConsumptionConstant : Rat
  mVariablePowerConsumptionFactor : Rat
  mRelevantEvents : String
  deriving Repr

/-- Python `repr` of a list of strings, as interpolated into the
multiple-buildings error message. -/
def pyStrListRepr (l : List String) : String :=
  "[" ++ String.intercalate ", " (l.map (fun s => "'" ++ s ++ "'")) ++ "]"

/-- The first statement of `parse_recipe`: the extracted producing-building
list with the entries of `FILTER_BUILDINGS` removed. -/
def filtered_produces_in (definition : RecipeDef) : List String :=
  (parse_class_list definition.mProducedIn).filter
    (fun building => !FILTER_BUILDINGS.contains building)

/-- The `parse_recipe` of the script.  `ok none` models the silent drop of a
recipe with no producing building after filtering; `ok (some r)` models
`game_db['recipes'].append(r)`. -/
def parse_recipe (definition : RecipeDef) (game_db : GameDb) :
    Except String (Option Recipe) :=
  match filtered_produces_in definition with
  | [] => .ok none
  | [building0] => do
    let building := pyReplace building0 "Build_" "Desc_"
    check_building_exists game_db building
    let recipe_key := definition.ClassName
    let alternate0 := RECIPES_FORCE_ALTERNATE.contains recipe_key
    let stripped := ALTERNATE_MARKER.isPrefixOf definition.mDisplayName
    let display_name :=
      if stripped then definition.mDisplayName.drop ALTERNATE_MARKER.length
      else definition.mDisplayName
    let alternate := if stripped then true else alternate0
    let inputs ← parse_item_list definition.mIngredients game_db
    let outputs ← parse_item_list definition.mProduct game_db
    let events ← parse_events definition.mRelevantEvents
    .ok (some {
      key := recipe_key
      name := display_name
      alternate := alternate
      inputs := inputs
      outputs := outputs
      craft_time_secs := definition.mManufactoringDuration
      events := events
      building := building
      power_min_mw := definition.mVariablePowerConsumptionConstant
      power_max_mw := definition.mVariablePowerConsumptionConstant
        + definition.mVariablePowerConsumptionFactor })
  | multiple =>
    .error ("Recipe " ++ definition.ClassName ++ " has multiple buildings: "
      ++ pyStrListRepr multiple)

/-- The `prune_unused_items` of the script: collect the item keys referenced by
generator fuel entries (reading the dict keys `fuel`, `supplemental` and
`by_product`) and by recipe inputs/outputs, then keep exactly the items
whose key is in that set. -/
def prune_unused_items (game_db : GameDb) : GameDb :=
  let fuel_used (fuel : Fuel) : List String :=
    [fuel.fuel.item]
    ++ (match fuel.supplemental with
        | some s => [s.item]
        | none => [])
    ++ (match fuel.by_product with
        | some b => [b.item]
        | none => [])
  let used_items : List String :=
    (game_db.buildings.map (fun building =>
      match building.fuels with
      | some fuels => (fuels.map fuel_used).flatten
      | none => [])).flatten
    ++ (game_db.recipes.map (fun recipe =>
        recipe.inputs.map (fun i => i.item)
        ++ recipe.outputs.map (fun o => o.item))).flatten
  { game_db with
    items := game_db.items.filter (fun item => used_items.contains item.key) }

/-- Python `str.lower` (all names in the data are ASCII, for which
`String.toLower` agrees with Python). -/
def pyLower (s : String) : String := s.toLower

/-- The sort key `(not item['resource'], item['name'].lower())` of `main`,
as a lexicographic pair (Python compares tuples lexicographically and
`False < True`). -/
def itemSortKey (item : Item) : Bool ×ₗ String :=
  toLex (!item.resource, pyLower item.name)

/-- Boolean comparison used to model `game_db['items'].sort(key=...)`. -/
def item_sort_le (a b : Item) : Bool :=
  decide (itemSortKey a ≤ itemSortKey b)

/-- Boolean comparison for `game_db['buildings'].sort(key=...)`. -/
def building_sort_le (a b : Building) : Bool :=
  decide (pyLower a.name ≤ pyLower b.name)

/-- Boolean comparison for `game_db['recipes'].sort(key=...)`. -/
def recipe_sort_le (a b : Recipe) : Bool :=
  decide (pyLower a.name ≤ pyLower b.name)

/-- The post-processing tail of `main`: prune unused items, sort the three
collections (Python `list.sort` is a stable sort by the given key, modelled
with the stable `List.mergeSort`), and delete the `biomass` working set. -/
def post_process (game_db : GameDb) : GameDb :=
  let game_db := prune_unused_items game_db
  { game_db with
    items := game_db.items.mergeSort item_sort_le
    buildings := game_db.buildings.mergeSort building_sort_le
    recipes := game_db.recipes.mergeSort recipe_sort_le
    biomass := [] }

/-- The empty game database (the state of `game_db` before the first
pass, restricted to the modelled fields). -/
def emptyDb : GameDb :=
  { items := [], biomass := [], buildings := [], recipes := [] }

/-- A concrete solid item used as a fuel in the concrete databases below. -/
def coalItem : Item :=
  { key := "Desc_Coal_C", name := "Coal", resource := true,
    state := "solid", sink_points := 0, energy_mj := 300 }

/-- A concrete liquid item used as a supplemental resource below. -/
def waterItem : Item :=
  { key := "Desc_Water_C", name := "Water", resource := true,
    state := "liquid", sink_points := 0, energy_mj := 0 }

/-- A database holding exactly the coal and water items, no recipes. -/
def dbCoalWater : GameDb :=
  { items := [coalItem, waterItem], biomass := [], buildings := [],
    recipes := [] }

/-- A concrete coal-generator definition whose single fuel entry names
water as its supplemental resource. -/
def coalGenDef : GeneratorDef :=
  { ClassName := "Build_GeneratorCoal_C"
    mDisplayName := "Coal-Powered Generator"
    mSupplementalToPowerRatio := 1/10
    mPowerProduction := 75
    mFuel := [{ mFuelClass := "Desc_Coal_C"
                mSupplementalResourceClass := "Desc_Water_C"
                mByproduct := ""
                mByproductAmount := none }] }

/-- The fuel entry `build_fuel` produces for coal in `dbCoalWater` with
supplemental water, ratio `1/10` and power production `75`: water is
stored under the dict key `supplemental_item`
(amount `300 * (1/10) / 1000`). -/
def coalFuelEntry : Fuel :=
  { fuel := { item := "Desc_Coal_C", amount := 1 }
    burn_time_secs := 4
    supplemental_item := some { item := "Desc_Water_C", amount := 3/100 } }

/-- The database `parse_power_generator coalGenDef dbCoalWater` produces. -/
def dbAfterGen : GameDb :=
  { dbCoalWater with
    buildings := [{
      type := "power_generator"
      key := "Desc_GeneratorCoal_C"
      name := "Coal-Powered Generator"
      fuels := some [coalFuelEntry] }] }

/-- A building class name with a second occurrence of `Build_` after the
structural prefix. -/
def doubleBuildDef : BuildingDef :=
  { ClassName := "Build_Build_Smelter_C", mDisplayName := "Odd Smelter" }

/-- Modelled from the spec wording of the claim under test (not from the
source): key derivation as a **prefix-only** replacement, leaving every
later occurrence of the pattern unchanged.  Compared against the source's
`pyReplace` (Python `str.replace`, which replaces every occurrence). -/
def prefixOnlyReplace (s pat new : String) : String :=
  if pat.data.isPrefixOf s.data then new ++ ⟨s.data.drop pat.data.length⟩
  else s

/-- The smelter building used by the referential-integrity witness. -/
def dbWithSmelter : GameDb :=
  { items := [], biomass := [],
    buildings := [{ type := "manufacturer", key := "Desc_SmelterMk1_C",
                    name := "Smelter" }],
    recipes := [] }

/-- The recipe definition used by the referential-integrity witness. -/
def ingotRecipeDef : RecipeDef :=
  { ClassName := "Recipe_IngotIron_C", mDisplayName := "Iron Ingot",
    mProducedIn := "(\"/Game/FactoryGame/Buildable/Factory/SmelterMk1/Build_SmelterMk1.Build_SmelterMk1_C\")",
    mIngredients := "", mProduct := "", mManufactoringDuration := 2,
    mVariablePowerConsumptionConstant := 0,
    mVariablePowerConsumptionFactor := 0, mRelevantEvents := "" }

/-- A `true` result means `pat` occurs as a contiguous run inside `s`. -/
def occursIn (pat : List Char) : List Char → Bool
  | [] => pat.isEmpty
  | c :: cs => pat.isPrefixOf (c :: cs) || occursIn pat cs

/-! ### Helper lemmas -/

/-- Mapping the event tokens fails as soon as one token is missing from
`EVENT_MAPPING` (the Python comprehension raises `KeyError`). -/
theorem eventTokens_mapM_error (l : List String) (t : String) (ht : t ∈ l)
    (hu : EVENT_MAPPING t = none) :
    ∃ msg, (l.mapM (fun e =>
        match EVENT_MAPPING e with
        | some v => Except.ok v
        | none => Except.error ("KeyError: " ++ e)) :
      Except String (List String)) = .error msg := by
  induction l with
  | nil => cases ht
  | cons a l ih =>
    cases h : EVENT_MAPPING a with
    | none =>
      exact ⟨"KeyError: " ++ a, by simp only [List.mapM_cons, h]; rfl⟩
    | some v =>
      rcases List.mem_cons.mp ht with rfl | hmem
      · rw [h] at hu; cases hu
      · obtain ⟨msg, hmsg⟩ := ih hmem
        refine ⟨msg, ?_⟩
        simp only [List.mapM_cons, h, hmsg]
        rfl

/-- A successful `find_item` returns a stored item with the requested key. -/
theorem find_item_ok {game_db : GameDb} {key : String} {it : Item}
    (h : find_item game_db key = .ok it) :
    it ∈ game_db.items ∧ it.key = key := by
  unfold find_item at h
  cases hf : game_db.items.find? (fun entry => entry.key = key) with
  | none => rw [hf] at h; cases h
  | some entry =>
    rw [hf] at h
    cases h
    refine ⟨List.mem_of_find?_eq_some hf, ?_⟩
    have := List.find?_some hf
    simpa using this

/-- A successful `check_building_exists` means a stored building has the
requested key. -/
theorem check_building_exists_ok {game_db : GameDb} {key : String}
    (h : check_building_exists game_db key = .ok ()) :
    ∃ b ∈ game_db.buildings, b.key = key := by
  unfold check_building_exists at h
  cases hf : game_db.buildings.find? (fun entry => entry.key = key) with
  | none => rw [hf] at h; cases h
  | some entry =>
    refine ⟨entry, List.mem_of_find?_eq_some hf, ?_⟩
    have := List.find?_some hf
    simpa using this

/-- Every entry produced by `resolve_items` refers to a stored item. -/
theorem resolve_items_ok {game_db : GameDb} :
    ∀ {ms : List (String × Nat)} {l : List ItemAmount},
      resolve_items game_db ms = .ok l →
      ∀ ia ∈ l, ∃ it ∈ game_db.items, it.key = ia.item
  | [], l, h => by
    unfold resolve_items at h
    cases h
    intro ia hia; cases hia
  | (key, rawAmount) :: rest, l, h => by
    unfold resolve_items at h
    cases hfi : find_item game_db key with
    | error e => rw [hfi] at h; cases h
    | ok entry =>
      rw [hfi] at h
      cases hrest : resolve_items game_db rest with
      | error e => rw [hrest] at h; cases h
      | ok tail =>
        rw [hrest] at h
        simp only [Bind.bind, Except.bind] at h
        cases h
        intro ia hia
        rcases List.mem_cons.mp hia with rfl | hmem
        · obtain ⟨hmem, hkey⟩ := find_item_ok hfi
          exact ⟨entry, hmem, hkey⟩
        · exact resolve_items_ok hrest ia hmem

/-- Inversion of a successful `Except` bind. -/
theorem except_bind_ok {α β : Type} {x : Except String α}
    {f : α → Except String β} {b : β} (h : (x >>= f) = .ok b) :
    ∃ a, x = .ok a ∧ f a = .ok b := by
  cases x with
  | error e => simp only [Bind.bind, Except.bind] at h; cases h
  | ok a => exact ⟨a, rfl, by simpa only [Bind.bind, Except.bind] using h⟩

/-- Inversion of a successful, non-dropped `parse_recipe`: the filtered
producing-building list was a singleton, the building check and both item
lists succeeded, and the recipe records their results. -/
theorem parse_recipe_ok_some {d : RecipeDef} {db : GameDb} {r : Recipe}
    (h : parse_recipe d db = .ok (some r)) :
    ∃ b, filtered_produces_in d = [b] ∧
      r.building = pyReplace b "Build_" "Desc_" ∧
      check_building_exists db r.building = .ok () ∧
      ∃ inputs outputs,
        parse_item_list d.mIngredients db = .ok inputs ∧
        parse_item_list d.mProduct db = .ok outputs ∧
        r.inputs = inputs ∧ r.outputs = outputs := by
  unfold parse_recipe at h
  cases hf : filtered_produces_in d with
  | nil => rw [hf] at h; cases h
  | cons b rest =>
    cases rest with
    | cons b2 rest2 => rw [hf] at h; cases h
    | nil =>
      rw [hf] at h
      refine ⟨b, rfl, ?_⟩
      obtain ⟨u, hc, h⟩ := except_bind_ok h
      obtain ⟨inputs, hi, h⟩ := except_bind_ok h
      obtain ⟨outputs, ho, h⟩ := except_bind_ok h
      obtain ⟨events, he, h⟩ := except_bind_ok h
      cases h
      exact ⟨rfl, by cases u; exact hc, inputs, outputs, hi, ho, rfl, rfl⟩

/-! ### C10 -/

/-- C10: the two parenthesized-comma-list parsers are asymmetric:
`parse_forms` returns only the mapped recognized form codes (unknown codes
are dropped), while `parse_events` raises a fatal error as soon as one
token is not in `EVENT_MAPPING`; both return the empty list for the empty
string. -/
theorem parse_forms_drops_parse_events_raises :
    (parse_forms "" = [] ∧ parse_events "" = .ok []) ∧
    (∀ s x, x ∈ parse_forms s →
      ∃ t ∈ pySplitComma (pyStripParens s), FORM_MAPPING t = some x) ∧
    (∀ s t, t ∈ pySplitComma (pyStripParens s) → EVENT_MAPPING t = none →
      s.length ≠ 0 → ∃ msg, parse_events s = .error msg) := by
  refine ⟨⟨rfl, rfl⟩, ?_, ?_⟩
  · intro s x hx
    unfold parse_forms at hx
    by_cases h0 : s.length = 0
    · rw [if_pos h0] at hx; cases hx
    · rw [if_neg h0] at hx
      exact List.mem_filterMap.mp hx
  · intro s t ht hu h0
    unfold parse_events
    rw [if_neg h0]
    exact eventTokens_mapM_error _ t ht hu

/-- Witness for C10 at concrete inputs: the unknown code `RF_BOGUS` is
dropped by `parse_forms`, while the unknown event code `EV_Bogus` makes
`parse_events` fail. -/
theorem parse_forms_drops_parse_events_raises_witness :
    (∃ t ∈ pySplitComma (pyStripParens "(RF_SOLID,RF_BOGUS)"),
      FORM_MAPPING t = some "solid") ∧
    (∃ msg, parse_events "(EV_Christmas,EV_Bogus)" = .error msg) := by
  constructor
  · exact parse_forms_drops_parse_events_raises.2.1 "(RF_SOLID,RF_BOGUS)"
      "solid" (by decide)
  · exact parse_forms_drops_parse_events_raises.2.2 "(EV_Christmas,EV_Bogus)"
      "EV_Bogus" (by decide) (by decide) (by decide)

/-! ### C3 -/

/-- C3: after filtering the producing buildings against
`FILTER_BUILDINGS`, an empty list silently drops the recipe, more than one
building raises a fatal error whose message names the recipe key, and a
single building is emitted (absent a fatal lookup error) as the recipe's
building key normalized to descriptor form. -/
theorem parse_recipe_building_count_policy (d : RecipeDef) (db : GameDb) :
    (filtered_produces_in d = [] → parse_recipe d db = .ok none) ∧
    (∀ b rest, filtered_produces_in d = b :: rest → rest ≠ [] →
      ∃ tail, parse_recipe d db = .error ("Recipe " ++ d.ClassName ++ tail)) ∧
    (∀ b, filtered_produces_in d = [b] →
      parse_recipe d db ≠ .ok none ∧
      ∀ r, parse_recipe d db = .ok (some r) →
        r.building = pyReplace b "Build_" "Desc_") := by
  refine ⟨?_, ?_, ?_⟩
  · intro hf; unfold parse_recipe; rw [hf]
  · intro b rest hf hne
    cases rest with
    | nil => exact absurd rfl hne
    | cons b2 r2 =>
      refine ⟨" has multiple buildings: " ++ pyStrListRepr (b :: b2 :: r2), ?_⟩
      unfold parse_recipe
      rw [hf]
      simp [String.append_assoc]
  · intro b hf
    constructor
    · intro heq
      unfold parse_recipe at heq
      rw [hf] at heq
      obtain ⟨u, hc, heq⟩ := except_bind_ok heq
      obtain ⟨inputs, hi, heq⟩ := except_bind_ok heq
      obtain ⟨outputs, ho, heq⟩ := except_bind_ok heq
      obtain ⟨events, he, heq⟩ := except_bind_ok heq
      cases heq
    · intro r hr
      obtain ⟨b2, hf2, hb, _⟩ := parse_recipe_ok_some hr
      rw [hf] at hf2
      injection hf2 with h1 h2
      rw [hb, h1]

/-- Witness for C3: a recipe produced only in the build gun (a filtered
tool) is silently dropped. -/
theorem parse_recipe_building_count_policy_witness :
    parse_recipe
      { ClassName := "Recipe_Fake_C", mDisplayName := "Fake",
        mProducedIn := "(\"/Game/FactoryGame/Equipment/BuildGun/BP_BuildGun.BP_BuildGun_C\")",
        mIngredients := "", mProduct := "", mManufactoringDuration := 1,
        mVariablePowerConsumptionConstant := 0,
        mVariablePowerConsumptionFactor := 0, mRelevantEvents := "" }
      emptyDb = .ok none :=
  (parse_recipe_building_count_policy _ emptyDb).1 (by decide)

/-! ### C2 -/

/-- C2: a recipe that is actually appended refers to a building present in
the building set and only to items present in the (pre-prune) item set; an
unknown key would instead have raised a fatal error inside `find_item` or
`check_building_exists`. -/
theorem parse_recipe_referential_integrity (d : RecipeDef) (db : GameDb)
    (r : Recipe) (h : parse_recipe d db = .ok (some r)) :
    (∃ building ∈ db.buildings, building.key = r.building) ∧
    (∀ ia ∈ r.inputs, ∃ it ∈ db.items, it.key = ia.item) ∧
    (∀ ia ∈ r.outputs, ∃ it ∈ db.items, it.key = ia.item) := by
  obtain ⟨b, hf, hb, hc, inputs, outputs, hi, ho, hri, hro⟩ :=
    parse_recipe_ok_some h
  refine ⟨check_building_exists_ok hc, ?_, ?_⟩
  · rw [hri]
    unfold parse_item_list at hi
    exact resolve_items_ok hi
  · rw [hro]
    unfold parse_item_list at ho
    exact resolve_items_ok ho

/-- Witness for C2: a concrete successful recipe parse satisfies the
referential-integrity conclusions. -/
theorem parse_recipe_referential_integrity_witness :
    (∃ building ∈ dbWithSmelter.buildings,
      building.key = ("Desc_SmelterMk1_C" : String)) ∧
    (∀ ia ∈ ([] : List ItemAmount), ∃ it ∈ dbWithSmelter.items, it.key = ia.item) ∧
    (∀ ia ∈ ([] : List ItemAmount), ∃ it ∈ dbWithSmelter.items, it.key = ia.item) :=
  parse_recipe_referential_integrity ingotRecipeDef dbWithSmelter
    { key := "Recipe_IngotIron_C", name := "Iron Ingot", alternate := false,
      inputs := [], outputs := [], craft_time_secs := 2, events := [],
      building := "Desc_SmelterMk1_C", power_min_mw := 0,
      power_max_mw := 0 + 0 }
    (by set_option maxRecDepth 4000 in rfl)

/-! ### C7 -/

/-- C7: `parse_item` zeroes the sink points and multiplies the energy value
by 1000 for fluids (liquid or gas); keeps the raw integer sink points and
the raw energy value for solids; and fails fatally on an unrecognized
state code. -/
theorem parse_item_state_rules (native_class : String) (d : ItemDef)
    (db : GameDb) :
    (FORM_MAPPING d.mForm = none →
      ∃ msg, parse_item native_class d db = .error msg) ∧
    (∀ st, FORM_MAPPING d.mForm = some st →
      ∃ db2 it, parse_item native_class d db = .ok db2 ∧
        db2.items = db.items ++ [it] ∧ it.state = st ∧
        ((st = "liquid" ∨ st = "gas") →
          it.sink_points = 0 ∧ it.energy_mj = d.mEnergyValue * 1000) ∧
        (st = "solid" →
          it.sink_points = d.mResourceSinkPoints ∧
          it.energy_mj = d.mEnergyValue)) := by
  constructor
  · intro h
    refine ⟨"KeyError: " ++ d.mForm, ?_⟩
    unfold parse_item
    rw [h]
  · intro st h
    have hst : st = "solid" ∨ st = "liquid" ∨ st = "gas" := by
      unfold FORM_MAPPING at h
      split_ifs at h <;> simp_all
    rcases hst with rfl | rfl | rfl
    · simp [parse_item, h]
      split <;> exact ⟨_, rfl, _, rfl, by simp⟩
    · simp [parse_item, h]
    · simp [parse_item, h]

/-- Witness for C7: a concrete liquid item gets zero sink points and
liter-to-cubic-meter energy. -/
theorem parse_item_state_rules_witness :
    ∃ db2 it,
      parse_item RESOURCE_CLASS
        { ClassName := "Desc_LiquidOil_C", mDisplayName := "Crude Oil",
          mForm := "RF_LIQUID", mEnergyValue := 32,
          mResourceSinkPoints := 10 } emptyDb = .ok db2 ∧
      db2.items = emptyDb.items ++ [it] ∧ it.state = "liquid" ∧
      (("liquid" = "liquid" ∨ ("liquid" : String) = "gas") →
        it.sink_points = 0 ∧ it.energy_mj = (32 : Rat) * 1000) ∧
      (("liquid" : String) = "solid" →
        it.sink_points = 10 ∧ it.energy_mj = (32 : Rat)) :=
  (parse_item_state_rules RESOURCE_CLASS _ emptyDb).2 "liquid" (by decide)

/-! ### C8 -/

/-- A fuel entry emitted by `build_fuel` records the fuel item's key, is
only emitted when the item's energy is nonzero, and has burn time equal to
the energy divided by the power production. -/
theorem build_fuel_ok_some {fuel_item : Item} {sk bk : String}
    {ba : Option Rat} {ratio : Rat} {power : Int} {db : GameDb} {f : Fuel}
    (h : build_fuel fuel_item sk bk ba ratio power db = .ok (some f)) :
    fuel_item.energy_mj ≠ 0 ∧ f.fuel.item = fuel_item.key ∧
    f.burn_time_secs = fuel_item.energy_mj / (power : Rat) := by
  unfold build_fuel at h
  by_cases he : fuel_item.energy_mj = 0
  · rw [if_pos he] at h; cases h
  · rw [if_neg he] at h
    refine ⟨he, ?_⟩
    obtain ⟨f1, h1, h⟩ := except_bind_ok h
    obtain ⟨f2, h2, h⟩ := except_bind_ok h
    cases h
    have hf1 : f1.fuel.item = fuel_item.key ∧
        f1.burn_time_secs = fuel_item.energy_mj / (power : Rat) := by
      split at h1
      · obtain ⟨si, hsi, h1⟩ := except_bind_ok h1
        cases h1
        exact ⟨rfl, rfl⟩
      · cases h1
        exact ⟨rfl, rfl⟩
    split at h2
    · split at h2
      · obtain ⟨bi, hbi, h2⟩ := except_bind_ok h2
        cases h2
        exact hf1
      · cases h2
        exact hf1
    · cases h2
      exact hf1

/-- Every fuel entry of the biomass fan-out comes from a `build_fuel` call
on an item of the working set. -/
theorem build_fuels_biomass_mem {sk bk : String} {ba : Option Rat}
    {ratio : Rat} {power : Int} {db : GameDb} :
    ∀ {items : List Item} {fs : List Fuel},
      build_fuels_biomass sk bk ba ratio power db items = .ok fs →
      ∀ f ∈ fs, ∃ it ∈ items,
        build_fuel it sk bk ba ratio power db = .ok (some f)
  | [], fs, h => by
    unfold build_fuels_biomass at h
    cases h
    intro f hf; cases hf
  | it0 :: rest, fs, h => by
    unfold build_fuels_biomass at h
    obtain ⟨pf, hpf, h⟩ := except_bind_ok h
    obtain ⟨tail, htail, h⟩ := except_bind_ok h
    intro f hf
    cases pf with
    | some f0 =>
      cases h
      rcases List.mem_cons.mp hf with rfl | hmem
      · exact ⟨it0, List.mem_cons_self _ _, hpf⟩
      · obtain ⟨it, hit, hbf⟩ := build_fuels_biomass_mem htail f hmem
        exact ⟨it, List.mem_cons_of_mem _ hit, hbf⟩
    | none =>
      cases h
      obtain ⟨it, hit, hbf⟩ := build_fuels_biomass_mem htail f hf
      exact ⟨it, List.mem_cons_of_mem _ hit, hbf⟩

/-- Every fuel entry `parse_fuels` emits resolves to a stored or biomass
item with nonzero energy, and records that item's key and burn time. -/
theorem parse_fuels_mem {ratio : Rat} {power : Int} {db : GameDb} :
    ∀ {specs : List FuelSpec} {fs : List Fuel},
      parse_fuels ratio power db specs = .ok fs →
      ∀ f ∈ fs, ∃ it : Item, (it ∈ db.items ∨ it ∈ db.biomass) ∧
        f.fuel.item = it.key ∧ it.energy_mj ≠ 0 ∧
        f.burn_time_secs = it.energy_mj / (power : Rat)
  | [], fs, h => by
    unfold parse_fuels at h
    cases h
    intro f hf; cases hf
  | spec :: rest, fs, h => by
    unfold parse_fuels at h
    obtain ⟨head, hh, h⟩ := except_bind_ok h
    obtain ⟨tail, htail, h⟩ := except_bind_ok h
    cases h
    intro f hf
    rcases List.mem_append.mp hf with hmem | hmem
    · by_cases hbio : spec.mFuelClass = "FGItemDescriptorBiomass"
      · rw [if_pos hbio] at hh
        obtain ⟨it, hit, hbf⟩ := build_fuels_biomass_mem hh f hmem
        obtain ⟨hne, hkey, hburn⟩ := build_fuel_ok_some hbf
        exact ⟨it, Or.inr hit, hkey, hne, hburn⟩
      · rw [if_neg hbio] at hh
        obtain ⟨fuel_item, hfi, hh⟩ := except_bind_ok hh
        obtain ⟨parsed, hbf, hh⟩ := except_bind_ok hh
        cases parsed with
        | some f0 =>
          cases hh
          rcases List.mem_singleton.mp hmem with rfl
          obtain ⟨hne, hkey, hburn⟩ := build_fuel_ok_some hbf
          exact ⟨fuel_item, Or.inl (find_item_ok hfi).1, hkey, hne, hburn⟩
        | none =>
          cases hh
          cases hmem
    · exact parse_fuels_mem htail f hmem

/-- C8: a fuel candidate resolving to an item with zero energy never
appears in the generator's fuel list (`build_fuel` returns `None` for it),
and every surviving fuel entry's burn time is the resolved item's energy
divided by the generator's power production. -/
theorem parse_fuels_energy_gating (specs : List FuelSpec) (ratio : Rat)
    (power : Int) (db : GameDb) (fs : List Fuel)
    (h : parse_fuels ratio power db specs = .ok fs) :
    (∀ f ∈ fs, ∃ it : Item, (it ∈ db.items ∨ it ∈ db.biomass) ∧
      f.fuel.item = it.key ∧ it.energy_mj ≠ 0 ∧
      f.burn_time_secs = it.energy_mj / (power : Rat)) ∧
    (∀ (it : Item) (sk bk : String) (ba : Option Rat), it.energy_mj = 0 →
      build_fuel it sk bk ba ratio power db = .ok none) := by
  refine ⟨parse_fuels_mem h, ?_⟩
  intro it sk bk ba hzero
  unfold build_fuel
  rw [if_pos hzero]

/-- Witness for C8 at the concrete coal generator data. -/
theorem parse_fuels_energy_gating_witness :
    ∃ it : Item, (it ∈ dbCoalWater.items ∨ it ∈ dbCoalWater.biomass) ∧
      coalFuelEntry.fuel.item = it.key ∧ it.energy_mj ≠ 0 ∧
      coalFuelEntry.burn_time_secs = it.energy_mj / ((75 : Int) : Rat) :=
  (parse_fuels_energy_gating coalGenDef.mFuel (1/10) 75 dbCoalWater
      [coalFuelEntry]
      (by simp [parse_fuels, build_fuel, find_item, coalGenDef, dbCoalWater,
            coalItem, waterItem, coalFuelEntry, Bind.bind, Except.bind]
          norm_num)).1
    coalFuelEntry (List.mem_singleton.mpr rfl)

/-! ### C5 -/

/-- C5: when a fuel spec carries both a non-empty by-product key and a
by-product amount, `build_fuel` records the by-product amount exactly as
given (the unit-converted local is discarded), even for a liquid or gas
by-product item; the supplemental amount for a non-solid supplemental item
is `energy * ratio / 1000`. -/
theorem build_fuel_by_product_unconverted (fuel_item si bi : Item)
    (db : GameDb) (sk bk : String) (q ratio : Rat) (power : Int)
    (he : fuel_item.energy_mj ≠ 0)
    (hsk : sk ≠ "") (hsi : find_item db sk = .ok si)
    (hss : si.state ≠ "solid")
    (hbk : bk ≠ "") (hbi : find_item db bk = .ok bi)
    (_hbs : bi.state ≠ "solid") :
    ∃ f, build_fuel fuel_item sk bk (some q) ratio power db = .ok (some f) ∧
      f.by_product = some { item := bk, amount := q } ∧
      f.supplemental_item =
        some { item := sk,
               amount := fuel_item.energy_mj * ratio / 1000 } := by
  simp only [build_fuel, if_neg he, if_pos hsk, hsi, if_pos hbk, hbi,
    Bind.bind, Except.bind, if_pos hss]
  exact ⟨_, rfl, rfl, rfl⟩

/-- Witness for C5: coal fuel with water as both supplemental and
by-product (both liquid): the by-product amount 50 stays 50, while the
supplemental amount is divided by 1000. -/
theorem build_fuel_by_product_unconverted_witness :
    ∃ f, build_fuel coalItem "Desc_Water_C" "Desc_Water_C" (some 50) (1/10)
        75 dbCoalWater = .ok (some f) ∧
      f.by_product = some { item := "Desc_Water_C", amount := 50 } ∧
      f.supplemental_item =
        some { item := "Desc_Water_C",
               amount := coalItem.energy_mj * (1/10) / 1000 } :=
  build_fuel_by_product_unconverted coalItem waterItem waterItem dbCoalWater
    "Desc_Water_C" "Desc_Water_C" 50 (1/10) 75
    (by decide) (by decide) rfl (by decide) (by decide) rfl (by decide)

/-! ### C9 -/

/-- The `item_sort_le` is transitive. -/
theorem item_sort_le_trans (a b c : Item) :
    item_sort_le a b → item_sort_le b c → item_sort_le a c := by
  unfold item_sort_le
  intro h1 h2
  simp only [decide_eq_true_eq] at h1 h2 ⊢
  exact le_trans h1 h2

/-- The `item_sort_le` is total. -/
theorem item_sort_le_total (a b : Item) :
    item_sort_le a b || item_sort_le b a := by
  unfold item_sort_le
  rcases le_total (itemSortKey a) (itemSortKey b) with h | h <;> simp [h]

/-- The `building_sort_le` is transitive. -/
theorem building_sort_le_trans (a b c : Building) :
    building_sort_le a b → building_sort_le b c → building_sort_le a c := by
  unfold building_sort_le
  intro h1 h2
  simp only [decide_eq_true_eq] at h1 h2 ⊢
  exact le_trans h1 h2

/-- The `building_sort_le` is total. -/
theorem building_sort_le_total (a b : Building) :
    building_sort_le a b || building_sort_le b a := by
  unfold building_sort_le
  rcases le_total (pyLower a.name) (pyLower b.name) with h | h <;> simp [h]

/-- The `recipe_sort_le` is transitive. -/
theorem recipe_sort_le_trans (a b c : Recipe) :
    recipe_sort_le a b → recipe_sort_le b c → recipe_sort_le a c := by
  unfold recipe_sort_le
  intro h1 h2
  simp only [decide_eq_true_eq] at h1 h2 ⊢
  exact le_trans h1 h2

/-- The `recipe_sort_le` is total. -/
theorem recipe_sort_le_total (a b : Recipe) :
    recipe_sort_le a b || recipe_sort_le b a := by
  unfold recipe_sort_le
  rcases le_total (pyLower a.name) (pyLower b.name) with h | h <;> simp [h]

/-- A smaller item sort key forces the resource flag to be monotone
(resources sort in front). -/
theorem itemSortKey_resource_mono {a b : Item}
    (h : itemSortKey a ≤ itemSortKey b) (hb : b.resource = true) :
    a.resource = true := by
  by_contra ha
  have ha2 : a.resource = false := by revert ha; cases a.resource <;> simp
  unfold itemSortKey at h
  rw [ha2, hb] at h
  rcases (Prod.Lex.le_iff _ _).mp h with hlt | ⟨heq, _⟩
  · exact (by decide : ¬((true : Bool) < false)) hlt
  · simp at heq

/-- C9: after post-processing, the items list is non-decreasing in the key
`(not resource, lower-cased name)` — in particular every resource item
precedes every non-resource item — and the buildings and recipes lists are
non-decreasing in lower-cased name. -/
theorem post_process_sorted (db : GameDb) :
    (post_process db).items.Pairwise
      (fun a b => itemSortKey a ≤ itemSortKey b) ∧
    (post_process db).items.Pairwise
      (fun a b => b.resource = true → a.resource = true) ∧
    (post_process db).buildings.Pairwise
      (fun a b => pyLower a.name ≤ pyLower b.name) ∧
    (post_process db).recipes.Pairwise
      (fun a b => pyLower a.name ≤ pyLower b.name) := by
  have hitems : (post_process db).items.Pairwise
      (fun a b => itemSortKey a ≤ itemSortKey b) := by
    refine List.Pairwise.imp ?_
      (List.sorted_mergeSort item_sort_le_trans item_sort_le_total
        (prune_unused_items db).items)
    intro a b hab
    exact of_decide_eq_true hab
  refine ⟨hitems, ?_, ?_, ?_⟩
  · exact hitems.imp (fun hab hb => itemSortKey_resource_mono hab hb)
  · refine List.Pairwise.imp ?_
      (List.sorted_mergeSort building_sort_le_trans building_sort_le_total
        (prune_unused_items db).buildings)
    intro a b hab
    exact of_decide_eq_true hab
  · refine List.Pairwise.imp ?_
      (List.sorted_mergeSort recipe_sort_le_trans recipe_sort_le_total
        (prune_unused_items db).recipes)
    intro a b hab
    exact of_decide_eq_true hab

/-- Witness for C9 at the concrete database `dbAfterGen`. -/
theorem post_process_sorted_witness :
    (post_process dbAfterGen).items.Pairwise
      (fun a b => itemSortKey a ≤ itemSortKey b) ∧
    (post_process dbAfterGen).items.Pairwise
      (fun a b => b.resource = true → a.resource = true) ∧
    (post_process dbAfterGen).buildings.Pairwise
      (fun a b => pyLower a.name ≤ pyLower b.name) ∧
    (post_process dbAfterGen).recipes.Pairwise
      (fun a b => pyLower a.name ≤ pyLower b.name) :=
  post_process_sorted dbAfterGen

/-! ### C6 -/

/-- The `List.isPrefixOf` on characters gives an append decomposition. -/
theorem isPrefixOf_exists {l₁ l₂ : List Char} (h : l₁.isPrefixOf l₂) :
    ∃ t, l₂ = l₁ ++ t := by
  rw [ List.isPrefixOf_iff_prefix] at h
  obtain ⟨t, ht⟩ := h
  exact ⟨t, ht.symm⟩

/-- A list is a prefix of itself followed by anything. -/
theorem isPrefixOf_append_self (l t : List Char) : l.isPrefixOf (l ++ t) := by
  rw [ List.isPrefixOf_iff_prefix]
  exact ⟨t, rfl⟩

/-- The `occursIn` decides the existence of an occurrence. -/
theorem occursIn_spec (pat : List Char) :
    ∀ s : List Char, occursIn pat s = true ↔ ∃ l r, s = l ++ pat ++ r
  | [] => by
    constructor
    · intro h
      have hpat : pat = [] := by
        revert h; unfold occursIn; cases pat <;> simp [List.isEmpty]
      exact ⟨[], [], by simp [hpat]⟩
    · rintro ⟨l, r, hl⟩
      have hpat : pat = [] := by
        rcases List.append_eq_nil.mp (List.append_eq_nil.mp hl.symm).1 with ⟨h1, h2⟩
        exact h2
      unfold occursIn
      simp [hpat, List.isEmpty]
  | c :: cs => by
    unfold occursIn
    constructor
    · intro h
      rcases Bool.or_eq_true_iff.mp h with hpre | hrec
      · obtain ⟨t, ht⟩ := isPrefixOf_exists hpre
        exact ⟨[], t, by simpa using ht⟩
      · obtain ⟨l, r, hl⟩ := (occursIn_spec pat cs).mp hrec
        exact ⟨c :: l, r, by rw [hl]; rfl⟩
    · rintro ⟨l, r, hl⟩
      cases l with
      | nil =>
        apply Bool.or_eq_true_iff.mpr
        left
        rw [ List.isPrefixOf_iff_prefix]
        exact ⟨r, by simpa using hl.symm⟩
      | cons c0 l0 =>
        apply Bool.or_eq_true_iff.mpr
        right
        apply (occursIn_spec pat cs).mpr
        refine ⟨l0, r, ?_⟩
        have := hl
        simp only [List.cons_append] at this
        exact (List.cons.injEq _ _ _ _).mp this |>.2

/-- Where the pattern never occurs, `pyReplaceAux` is the identity. -/
theorem pyReplaceAux_no_occurrence (p : Char) (ps new : List Char) :
    ∀ (fuel : Nat) (s : List Char), (¬ ∃ l r, s = l ++ (p :: ps) ++ r) →
      pyReplaceAux p ps new fuel s = s
  | fuel, [], _ => by cases fuel <;> rfl
  | 0, _ :: _, _ => rfl
  | Nat.succ fuel, c :: cs, h => by
    have hpre : ((p :: ps).isPrefixOf (c :: cs)) = false := by
      by_contra hcon
      have hp2 : (p :: ps).isPrefixOf (c :: cs) := by
        revert hcon; cases ((p :: ps).isPrefixOf (c :: cs)) <;> simp
      obtain ⟨t, ht⟩ := isPrefixOf_exists hp2
      exact h ⟨[], t, by simpa using ht⟩
    simp only [pyReplaceAux, hpre, Bool.false_eq_true, if_false]
    have htail : ¬ ∃ l r, cs = l ++ (p :: ps) ++ r := by
      rintro ⟨l, r, hl⟩
      exact h ⟨c :: l, r, by rw [hl]; rfl⟩
    rw [pyReplaceAux_no_occurrence p ps new fuel cs htail]

/-- One replacement step at a matched head, with no further occurrence. -/
theorem pyReplaceAux_head_match (p : Char) (ps new t : List Char) (fuel : Nat)
    (h : ¬ ∃ l r, t = l ++ (p :: ps) ++ r) :
    pyReplaceAux p ps new (Nat.succ fuel) (p :: (ps ++ t)) = new ++ t := by
  have hpre : ((p :: ps).isPrefixOf (p :: (ps ++ t))) = true :=
    isPrefixOf_append_self (p :: ps) t
  simp only [pyReplaceAux, hpre, if_true]
  rw [List.drop_left]
  rw [pyReplaceAux_no_occurrence p ps new fuel t h]

/-- C6 counterexample: for the class name `Build_Build_Smelter_C` the
script's key (Python `str.replace`) rewrites *both* occurrences of
`Build_`, while the prefix-only replacement the claim describes would
leave the second occurrence intact. -/
theorem building_key_counterexample :
    (parse_manufacturer_building doubleBuildDef emptyDb).buildings.map
        (fun b => b.key) = ["Desc_Desc_Smelter_C"] ∧
    prefixOnlyReplace doubleBuildDef.ClassName "Build_" "Desc_" =
      "Desc_Build_Smelter_C" ∧
    ("Desc_Desc_Smelter_C" : String) ≠ "Desc_Build_Smelter_C" :=
  ⟨by decide, by decide, by decide⟩

/-- C6 (amended): the building key is the class name with **every**
occurrence of `Build_` replaced by `Desc_` (Python `str.replace`
semantics); when `Build_` occurs in the class name only as the leading
structural prefix, this agrees with the claimed prefix replacement and
leaves the remainder unchanged. -/
theorem building_key_replaces_every_occurrence (d : BuildingDef)
    (db : GameDb) :
    ((parse_manufacturer_building d db).buildings.map (fun b => b.key)) =
      (db.buildings.map (fun b => b.key)) ++
        [pyReplace d.ClassName "Build_" "Desc_"] ∧
    (∀ rest : String, d.ClassName = "Build_" ++ rest →
      occursIn "Build_".data rest.data = false →
      pyReplace d.ClassName "Build_" "Desc_" = "Desc_" ++ rest) := by
  constructor
  · simp [parse_manufacturer_building]
  · intro rest hclass hno
    have hnex : ¬ ∃ l r, rest.data = l ++ "Build_".data ++ r := by
      intro hex
      rw [(occursIn_spec "Build_".data rest.data).mpr hex] at hno
      cases hno
    have hdata : d.ClassName.data = "Build_".data ++ rest.data := by
      rw [hclass, String.data_append]
    have h0 : pyReplace d.ClassName "Build_" "Desc_" =
        ⟨pyReplaceAux 'B' "uild_".data "Desc_".data d.ClassName.data.length
          d.ClassName.data⟩ := rfl
    have h1 : pyReplaceAux 'B' "uild_".data "Desc_".data
        ("Build_".data ++ rest.data).length ("Build_".data ++ rest.data) =
        "Desc_".data ++ rest.data := by
      have hsplit : ("Build_".data ++ rest.data) =
          'B' :: ("uild_".data ++ rest.data) := rfl
      rw [hsplit, List.length_cons]
      exact pyReplaceAux_head_match 'B' "uild_".data "Desc_".data rest.data
        ("uild_".data ++ rest.data).length hnex
    rw [h0, hdata]
    rw [h1, ← String.data_append]

/-- Witness for C6 (amended) at a realistic class name whose remainder has
no further `Build_` occurrence. -/
theorem building_key_replaces_every_occurrence_witness :
    pyReplace ("Build_SmelterMk1_C" : String) "Build_" "Desc_" =
      "Desc_" ++ "SmelterMk1_C" :=
  (building_key_replaces_every_occurrence
      { ClassName := "Build_SmelterMk1_C", mDisplayName := "Smelter" }
      emptyDb).2
    "SmelterMk1_C" (by decide) (by decide)

/-! ### C4 -/

/-- The scan driver yields nothing on exhausted input. -/
theorem classListAux_nil (fuel : Nat) : classListAux fuel [] = [] := by
  cases fuel <;> rfl

/-- A single well-formed quoted dot-qualified occurrence matches at the
quote, capturing everything between the *first* dot and the closing
quote. -/
theorem matchClassAt_quoted (s1 s2 : List Char)
    (h1 : s1 ≠ []) (h1d : ∀ c ∈ s1, c ≠ '.' ∧ c ≠ '"')
    (h2 : s2 ≠ []) (h2q : ∀ c ∈ s2, c ≠ '"' ∧ c ≠ '\n') :
    matchClassAt ('"' :: (s1 ++ '.' :: (s2 ++ ['"']))) = some (s2, []) := by
  have hpre : (s1 ++ '.' :: (s2 ++ ['"'])).takeWhile
      (fun a => decide (a ≠ '.')) = s1 := by
    rw [List.takeWhile_append_of_pos
      (fun a ha => decide_eq_true ((h1d a ha).1))]
    rw [List.takeWhile_cons_of_neg (by simp)]
    exact List.append_nil s1
  have hdrop : (s1 ++ '.' :: (s2 ++ ['"'])).drop s1.length =
      '.' :: (s2 ++ ['"']) := List.drop_left s1 _
  cases s2 with
  | nil => exact absurd rfl h2
  | cons d s2' =>
    have hmore : (s2' ++ ['"']).takeWhile (fun a => decide (a ≠ '"')) =
        s2' := by
      rw [List.takeWhile_append_of_pos
        (fun a ha => decide_eq_true ((h2q a (List.mem_cons_of_mem d ha)).1))]
      rw [List.takeWhile_cons_of_neg (by simp)]
      exact List.append_nil s2'
    have hdrop2 : (s2' ++ ['"']).drop s2'.length = ['"'] :=
      List.drop_left s2' _
    have hall : (d :: s2').all (fun a => decide (a ≠ '\n')) = true := by
      apply List.all_eq_true.mpr
      intro a ha
      exact decide_eq_true ((h2q a ha).2)
    have hne : s1.isEmpty = false := by
      cases s1 with
      | nil => exact absurd rfl h1
      | cons a l => rfl
    simp only [matchClassAt, if_pos rfl, hpre, hdrop, hne, hmore, hdrop2,
      hall, Bool.false_eq_true, if_false, if_true]
    split
    next heq => exact absurd heq (by simp)
    next d2 rest3 heq =>
      obtain ⟨rfl, rfl⟩ := List.cons.injEq .. |>.mp heq |>.imp id id
      simp only [List.append_eq, hmore, hdrop2, hall, if_true]

/-- C4 counterexample: on the quoted path `"A.B.C"` the class-list
extraction captures `B.C` — the text after the *first* dot — not the
trailing segment `C` after the last dot that the claim describes. -/
theorem class_list_counterexample :
    parse_class_list "\"A.B.C\"" = ["B.C"] ∧
    (["B.C"] : List String) ≠ ["C"] :=
  ⟨by decide, by decide⟩

/-- C4 (amended): for a quoted dot-qualified occurrence
`"` ++ s1 ++ `.` ++ s2 ++ `"` (s1 non-empty without dot or quote, s2
non-empty without quote or newline), the captured text is s2 — everything
after the **first** dot and before the closing quote (so for a path with
several dots the capture retains the later dots). -/
theorem class_list_captures_after_first_dot (s1 s2 : List Char)
    (h1 : s1 ≠ []) (h1d : ∀ c ∈ s1, c ≠ '.' ∧ c ≠ '"')
    (h2 : s2 ≠ []) (h2q : ∀ c ∈ s2, c ≠ '"' ∧ c ≠ '\n') :
    parse_class_list ⟨'"' :: (s1 ++ '.' :: (s2 ++ ['"']))⟩ = [⟨s2⟩] := by
  unfold parse_class_list
  simp only [List.length_cons]
  simp only [classListAux, matchClassAt_quoted s1 s2 h1 h1d h2 h2q]
  rfl

/-- Witness for C4 (amended): the concrete occurrence `"A.B.C"` captures
`B.C`. -/
theorem class_list_captures_after_first_dot_witness :
    parse_class_list ⟨'"' :: (['A'] ++ '.' :: (['B', '.', 'C'] ++ ['"']))⟩ =
      [⟨['B', '.', 'C']⟩] :=
  class_list_captures_after_first_dot ['A'] ['B', '.', 'C']
    (by decide) (by decide) (by decide) (by decide)

/-! ### C1 -/

/-- C1: the code violates the claim.  `build_fuel` stores a supplemental
resource under the dict key `supplemental_item`, but `prune_unused_items`
tests for the key `supplemental`, which no code path ever writes, so a
supplemental item's key is never added to the used set.  Concretely: in
`dbAfterGen` (the exact output of `parse_power_generator` on
`dbCoalWater`), water is referenced by the coal fuel entry as its
supplemental item, yet pruning removes water — the claim instead requires
water to survive. -/
theorem prune_drops_supplemental_only_item :
    parse_power_generator coalGenDef dbCoalWater = .ok dbAfterGen ∧
    dbAfterGen.buildings.map (fun b => b.fuels) = [some [coalFuelEntry]] ∧
    coalFuelEntry.supplemental_item =
      some { item := waterItem.key, amount := 3/100 } ∧
    coalFuelEntry.supplemental = none ∧
    waterItem ∈ dbAfterGen.items ∧
    (prune_unused_items dbAfterGen).items = [coalItem] := by
  refine ⟨?_, rfl, rfl, rfl, by decide, by decide⟩
  simp [parse_power_generator, coalGenDef, dbCoalWater, dbAfterGen,
    parse_fuels, build_fuel, find_item, coalItem, waterItem, pyTrunc,
    pyReplace, pyReplaceAux, coalFuelEntry, Bind.bind, Except.bind]
  norm_num
example : parse_class_list "(\"/Game/X/Build_ConstructorMk1.Build_ConstructorMk1_C\")" = ["Build_ConstructorMk1_C"] := by decide
example : pyReplace "Build_Build_C" "Build_" "Desc_" = "Desc_Desc_C" := by decide
example : parse_forms "(RF_SOLID,RF_BOGUS)" = ["solid"] := by decide
set_option maxRecDepth 4000 in
example : itemListMatches "(ItemClass=/Script/Engine.BlueprintGeneratedClass'\"/Game/FactoryGame/Resource/Parts/Iron/Desc_OreIron.Desc_OreIron_C\"',Amount=12)" = [("Desc_OreIron_C", 12)] := by decide
